import Mathlib

/-!
Verification of the rag-fastapi document ingestion and retrieval pipeline.

The Python sources are shallowly embedded as executable Lean definitions:

* `chunk_py` embeds the chunking step of `TextProcessor.chunk_and_embed`
  (`background_tasks.py`): the list comprehension
  `[' '.join(sentences[i:i + chunk_size]) for i in range(0, len(sentences), chunk_size)]`.
  Sentence segmentation (`nltk.sent_tokenize`) is an external library call and
  is modelled by quantifying over the resulting sentence list.
* `pdfParse`, `runExtractor`, `fileParser_parse` embed `file_parser.py`.
  PDF documents are modelled abstractly: a page has a text layer (what
  `page.extract_text()` returns) and an OCR outcome (`some s` when
  `pytesseract` succeeds with `s`, `none` when it raises).
* `upload_file` embeds the `/uploadfile/` handler of `app.py` over an explicit
  file-system and database state.
* `validResult` embeds the `/find-similar-chunks/` SQL query of `app.py`:
  `SELECT ... WHERE file_id = fid ORDER BY l2_distance(vec, q) LIMIT 10`.
  SQL `ORDER BY` fixes only the stated key, so the embedding is the relation
  of all result lists the database may return.  Distances are compared by
  squared L2 distance over ℚ, which orders vectors exactly as L2 distance does.
* `chunk_and_embed` embeds the embed-and-store loop of
  `TextProcessor.chunk_and_embed` with an explicit SQLAlchemy-style session
  (pending rows become visible to the index only at `commit()`).
-/

/-- Model of Python index generation `range(i, stop, step)` for a positive step. -/
def countup (stop step i : Nat) : List Nat :=
  if h : 0 < step ∧ i < stop then i :: countup stop step (i + step) else []
termination_by stop - i
decreasing_by omega

/-- Python exceptions raised by the embedded code. -/
inductive PyError where
  | valueError (msg : String) : PyError
deriving DecidableEq

/-- Model of Python `range(0, stop, step)` for an arbitrary integer step:
`step = 0` raises `ValueError`; a negative step with a non-negative stop yields
the empty range. -/
def pyRange0 (stop : Nat) (step : Int) : Except PyError (List Nat) :=
  if step = 0 then .error (.valueError "range step must not be zero")
  else if step < 0 then .ok []
  else .ok (countup stop step.toNat 0)

/-- The chunking step of `TextProcessor.chunk_and_embed`:
`[' '.join(sentences[i:i + chunk_size]) for i in range(0, len(sentences), chunk_size)]`.
The Python slice `sentences[i:i+n]` is `(sentences.drop i).take n`. -/
def chunk_py (n : Int) (sentences : List String) : Except PyError (List String) :=
  (pyRange0 sentences.length n).map
    (fun idxs => idxs.map (fun i => String.intercalate " " ((sentences.drop i).take n.toNat)))

/-- Reference chunking from the spec: partition the sentence sequence into
consecutive non-overlapping groups of exactly `n` sentences, the final group
holding the `1..n` remainder. -/
def refChunks (n : Nat) (s : List String) : List (List String) :=
  if h : 0 < n ∧ s ≠ [] then s.take n :: refChunks n (s.drop n) else []
termination_by s.length
decreasing_by
  rcases h with ⟨hn, hs⟩
  have : 0 < s.length := List.length_pos.mpr hs
  simp [List.length_drop]
  omega

/-- A row of the `file_chunks` table (`db.py`). -/
structure FileChunk where
  chunk_id : Nat
  file_id : Nat
  chunk_text : String
  embedding_vector : List ℚ
deriving DecidableEq

/-- Squared L2 distance between two vectors.  pgvector's `l2_distance` is the
square root of this value; both induce the same ordering of candidates, so
ranking by `sqDist` is ranking by L2 distance. -/
def sqDist (u v : List ℚ) : ℚ := (List.zipWith (fun a b => (a - b) * (a - b)) u v).sum

/-- The distance key of the `ORDER BY` clause of `find_similar_chunks`. -/
def chunkDist (q : List ℚ) (c : FileChunk) : ℚ := sqDist c.embedding_vector q

/-- The query issued by `find_similar_chunks` (`app.py`):
`select(FileChunk).where(FileChunk.file_id == fid)`
`.order_by(embedding_vector.l2_distance(q)).limit(10)`.
SQL `ORDER BY` constrains only the stated key, so the embedding is the
relation of all result lists the database may return: an ordering of the
matching rows that is non-decreasing in distance, truncated to the first
10 rows. -/
def validResult (db : List FileChunk) (fid : Nat) (q : List ℚ) (out : List FileChunk) : Prop :=
  ∃ full : List FileChunk,
    full.Perm (db.filter (fun c => c.file_id == fid)) ∧
    full.Pairwise (fun a b => chunkDist q a ≤ chunkDist q b) ∧
    out = full.take 10

/-- A PDF page: `textLayer` is what `page.extract_text()` returns, `ocr` the
outcome of rendering the page and running `pytesseract.image_to_string`
(`none` models the OCR pipeline raising an exception). -/
structure PdfPage where
  textLayer : String
  ocr : Option String
deriving DecidableEq

/-- A PDF document as `PyPDF2.PdfReader` exposes it: `encrypted` is
`reader.is_encrypted`, and `decryptOk` tells whether `reader.decrypt('')`
succeeds. -/
structure PdfDoc where
  encrypted : Bool
  decryptOk : Bool
  pages : List PdfPage
deriving DecidableEq

/-- A file handed to `PdfParser.parse`: `readable = false` models the cases
where opening or reading the document raises (corrupt or unreadable file),
caught by the outer `except` of `PdfParser.parse`. -/
structure PdfFile where
  readable : Bool
  doc : PdfDoc
deriving DecidableEq

/-- `PdfParser._ocr_page`: returns the recognised text, degrading a raised
OCR error to the placeholder string returned by its `except` branch. -/
def ocrPage (p : PdfPage) : String := p.ocr.getD "Error in OCR processing"

/-- Per-page text in `PdfParser.parse`: direct text-layer extraction with the
OCR fallback exactly when the direct result is empty (`if not page_content`). -/
def pageText (p : PdfPage) : String :=
  if p.textLayer = "" then ocrPage p else p.textLayer

/-- The page loop of `PdfParser.parse`: `content += page_content` over the
pages in order. -/
def pagesText (ps : List PdfPage) : String :=
  ps.foldl (fun content p => content ++ pageText p) ""

/-- Concatenation of a list of strings with no separator. -/
def strConcat (l : List String) : String := l.foldr (fun a b => a ++ b) ""

/-- `PdfParser.parse` (`file_parser.py`): unreadable documents and failed
empty-password decryption degrade to fixed failure strings; otherwise the
pages are processed in order. -/
def pdfParse (f : PdfFile) : String :=
  if !f.readable then "Error processing PDF file"
  else if f.doc.encrypted && !f.doc.decryptOk then "Unable to decrypt PDF"
  else pagesText f.doc.pages

/-- Content stored at a path: a text file's characters or a PDF document. -/
inductive FileData where
  | text (s : String) : FileData
  | pdf (f : PdfFile) : FileData
deriving DecidableEq

/-- Model of the on-disk `sources` folder: paths with their contents. -/
structure FS where
  files : List (String × FileData)
deriving DecidableEq

def FS.lookup (fs : FS) (p : String) : Option FileData :=
  (fs.files.find? (fun x => x.1 == p)).map Prod.snd

def FS.write (fs : FS) (p : String) (d : FileData) : FS :=
  ⟨(p, d) :: fs.files⟩

/-- The registered extractor kinds (`ParserFactory._parsers` after the two
`register_parser` calls run at import time). -/
inductive ParserKind where
  | txt
  | pdf
deriving DecidableEq

def registry : List (String × ParserKind) := [("txt", .txt), ("pdf", .pdf)]

/-- `ParserFactory._parsers.get(extension)`. -/
def resolveExtractor (ext : String) : Option ParserKind :=
  (registry.find? (fun x => x.1 == ext)).map Prod.snd

/-- Python `str.split('.')` on the character sequence: split at every dot,
keeping empty segments; the result is never the empty list. -/
def splitDots : List Char → List (List Char)
  | [] => [[]]
  | c :: rest =>
    let r := splitDots rest
    if c = '.' then [] :: r
    else
      match r with
      | [] => [[c]]
      | h :: t => (c :: h) :: t

/-- Python `path.split('.')[-1]`: the segment after the final dot (the whole
path when it contains no dot). -/
def lastDotSegment (p : String) : String := String.mk ((splitDots p.data).getLastD [])

/-- `TxtParser.parse` / `PdfParser.parse` applied to a file's content.
`TxtParser` on binary PDF data models the decode failure being degraded to
its placeholder string; `PdfParser` on plain text models an unparsable
document. -/
def runExtractor : ParserKind → FileData → String
  | .txt, .text s => s
  | .txt, .pdf _ => "Error reading text file"
  | .pdf, .text _ => "Error processing PDF file"
  | .pdf, .pdf f => pdfParse f

/-- Errors raised by `FileParser`: `ValueError` for an unsupported extension
(the spec's `UnsupportedTypeError`) and `FileNotFoundError` for a missing
file (the spec's `NotFoundError`). -/
inductive ParseError where
  | unsupportedType (ext : String) : ParseError
  | notFound (path : String) : ParseError
deriving DecidableEq

/-- `FileParser(filepath).parse()` (`file_parser.py`): the constructor
resolves the extension (raising for an unregistered one before any file
access), then `parse` checks existence and delegates to the extractor. -/
def fileParser_parse (fs : FS) (filepath : String) : Except ParseError String :=
  match resolveExtractor (lastDotSegment filepath) with
  | none => .error (.unsupportedType (lastDotSegment filepath))
  | some k =>
    match fs.lookup filepath with
    | none => .error (.notFound filepath)
    | some d => .ok (runExtractor k d)

/-- A row of the `files` table (`db.py`). -/
structure FileRec where
  file_id : Nat
  file_name : String
  file_content : String
deriving DecidableEq

/-- Outcome of the `/uploadfile/` endpoint: success, HTTP 400 for a
disallowed file type, or HTTP 500 for any exception in the handler body. -/
inductive UploadResult where
  | ok (filename : String) : UploadResult
  | badRequest : UploadResult
  | serverError : UploadResult
deriving DecidableEq

/-- The `/uploadfile/` handler of `app.py`: it checks the filename extension,
then parses whatever already sits at `sources/<filename>` (the handler calls
`FileParser(file_location).parse()` before writing the uploaded bytes), then
writes the uploaded bytes to that path and inserts the `File` row carrying
the parsed text.  Any exception inside the `try` block is degraded to HTTP
500 with no state change. -/
def upload_file (fs : FS) (db : List FileRec) (filename : String) (uploaded : FileData) :
    UploadResult × FS × List FileRec :=
  if lastDotSegment filename ∉ (["txt", "pdf"] : List String) then
    (.badRequest, fs, db)
  else
    match fileParser_parse fs ("sources/" ++ filename) with
    | .error _ => (.serverError, fs, db)
    | .ok content =>
        (.ok filename,
         fs.write ("sources/" ++ filename) uploaded,
         db ++ [⟨db.length + 1, filename, content⟩])

/-- An SQLAlchemy session: rows already committed to the store and rows added
but still pending.  Only committed rows are visible to the retrieval index. -/
structure Session where
  committed : List FileChunk
  pending : List FileChunk
deriving DecidableEq

def Session.add (s : Session) (c : FileChunk) : Session :=
  ⟨s.committed, s.pending ++ [c]⟩

def Session.commitAll (s : Session) : Session :=
  ⟨s.committed ++ s.pending, []⟩

/-- The embed-and-add loop of `TextProcessor.chunk_and_embed`
(`background_tasks.py`): an `embed` outcome of `none` models the OpenAI call
raising, which propagates out of the loop with the session in its current
state (`Except.error`); a successful embedding is followed by `db.add` of the
new row (its identifier assigned in insertion order). -/
def chunkLoop (embed : String → Option (List ℚ)) (fid : Nat) :
    Session → List String → Except Session Session
  | s, [] => .ok s
  | s, c :: rest =>
    match embed c with
    | none => .error s
    | some v =>
      chunkLoop embed fid
        (s.add ⟨s.committed.length + s.pending.length + 1, fid, c, v⟩) rest

/-- `TextProcessor.chunk_and_embed` after the chunking step: run the
embed-and-add loop over the chunks, then `db.commit()` once after the loop. -/
def chunk_and_embed (embed : String → Option (List ℚ)) (fid : Nat)
    (s : Session) (chunks : List String) : Except Session Session :=
  (chunkLoop embed fid s chunks).map Session.commitAll

/-- Concrete chunks at pairwise distinct distances from `exQ`. -/
def exDb3 : List FileChunk :=
  [⟨1, 1, "x", [0]⟩, ⟨2, 1, "y", [1]⟩, ⟨3, 1, "z", [2]⟩]

/-- Concrete query vector for the retrieval examples. -/
def exQ : List ℚ := [0]

/-- Two chunks of the same document at equal distance from `exQ`. -/
def exA : FileChunk := ⟨1, 1, "alpha", [1]⟩

def exB : FileChunk := ⟨2, 1, "beta", [-1]⟩

def tieDb : List FileChunk := [exA, exB]

theorem countup_map_take (s : List String) (n : Nat) (hn : 0 < n) :
    ∀ i, (countup s.length n i).map (fun j => (s.drop j).take n) = refChunks n (s.drop i) := by
  have H : ∀ (k i : Nat), s.length - i ≤ k →
      (countup s.length n i).map (fun j => (s.drop j).take n) = refChunks n (s.drop i) := by
    intro k
    induction k with
    | zero =>
      intro i hi
      have hle : s.length ≤ i := by omega
      have hnlt : ¬ i < s.length := by omega
      rw [countup, refChunks]
      simp [List.drop_eq_nil_of_le hle, hnlt]
    | succ k ih =>
      intro i hi
      by_cases hlt : i < s.length
      · rw [countup, refChunks]
        have hne : s.drop i ≠ [] :=
          List.ne_nil_of_length_pos (by rw [List.length_drop]; omega)
        simp only [hn, hlt, and_self, hne, ne_eq, not_false_eq_true, dite_true, List.map_cons]
        rw [ih (i + n) (by omega)]
        rw [List.drop_drop]
      · rw [countup, refChunks]
        have hdrop : s.drop i = [] := List.drop_eq_nil_of_le (by omega)
        simp [hdrop, hlt]
  intro i
  exact H (s.length - i) i le_rfl

theorem refChunks_flatten (n : Nat) (hn : 0 < n) (s : List String) :
    (refChunks n s).flatten = s := by
  have H : ∀ (k : Nat) (s : List String), s.length ≤ k → (refChunks n s).flatten = s := by
    intro k
    induction k with
    | zero =>
      intro s hs
      have hnil : s = [] := List.eq_nil_of_length_eq_zero (by omega)
      subst hnil
      rw [refChunks]
      simp
    | succ k ih =>
      intro s hs
      rw [refChunks]
      by_cases hne : s = []
      · simp [hne]
      · have hpos : 0 < s.length := List.length_pos.mpr hne
        simp only [hn, hne, ne_eq, not_false_eq_true, and_self, dite_true, List.flatten_cons]
        rw [ih (s.drop n) (by simp [List.length_drop]; omega)]
        exact List.take_append_drop n s
  exact H s.length s le_rfl

theorem refChunks_length (n : Nat) (hn : 0 < n) (s : List String) :
    (refChunks n s).length = (s.length + n - 1) / n := by
  have hd0 : (n - 1) / n = 0 := Nat.div_eq_of_lt (by omega)
  have H : ∀ (k : Nat) (s : List String), s.length ≤ k →
      (refChunks n s).length = (s.length + n - 1) / n := by
    intro k
    induction k with
    | zero =>
      intro s hs
      have hnil : s = [] := List.eq_nil_of_length_eq_zero (by omega)
      subst hnil
      rw [refChunks]
      simp [hd0]
    | succ k ih =>
      intro s hs
      rw [refChunks]
      by_cases hne : s = []
      · simp [hne, hd0]
      · have hpos : 0 < s.length := List.length_pos.mpr hne
        simp only [hn, hne, ne_eq, not_false_eq_true, and_self, dite_true, List.length_cons]
        rw [ih (s.drop n) (by simp [List.length_drop]; omega)]
        rw [List.length_drop]
        have harith : s.length + n - 1 = (s.length - 1) + n := by omega
        rw [harith, Nat.add_div_right _ hn]
        by_cases hle : s.length ≤ n
        · have h1 : s.length - n = 0 := by omega
          have h3 : (s.length - 1) / n = 0 := Nat.div_eq_of_lt (by omega)
          rw [h1, h3]
          simpa using hd0
        · have harith2 : s.length - n + n - 1 = (s.length - n - 1) + n := by omega
          have harith3 : s.length - 1 = (s.length - n - 1) + n := by omega
          rw [harith2, harith3, Nat.add_div_right _ hn]
  exact H s.length s le_rfl

/-- C1: for every sentence sequence and every positive chunk size `n`, the
chunker of `TextProcessor.chunk_and_embed` returns exactly the reference
chunking (groups of `n` consecutive sentences joined by single spaces),
concatenating the reference groups reconstructs the sentence sequence, the
chunk count is `⌈S / n⌉`, and an empty input yields zero chunks. -/
theorem chunker_matches_reference (n : Int) (s : List String) (hn : 0 < n) :
    chunk_py n s = .ok ((refChunks n.toNat s).map (String.intercalate " ")) ∧
    (refChunks n.toNat s).flatten = s ∧
    (refChunks n.toNat s).length = (s.length + n.toNat - 1) / n.toNat ∧
    (s = [] → chunk_py n s = .ok []) := by
  have hn0 : (0 : Nat) < n.toNat := by omega
  have hmain : chunk_py n s = .ok ((refChunks n.toNat s).map (String.intercalate " ")) := by
    unfold chunk_py pyRange0
    have h1 : ¬(n = 0) := by omega
    have h2 : ¬(n < 0) := by omega
    simp only [h1, h2, if_false, ite_false, Except.map]
    have := countup_map_take s n.toNat hn0 0
    rw [List.drop_zero] at this
    rw [← this, List.map_map]
    rfl
  refine ⟨hmain, refChunks_flatten n.toNat hn0 s, refChunks_length n.toNat hn0 s, ?_⟩
  intro hs
  subst hs
  rw [hmain, refChunks]
  simp

/-- C1 witness: the chunker at sentence list `["a", "b", "c"]` with chunk size 2. -/
theorem chunker_matches_reference_witness :
    chunk_py 2 ["a", "b", "c"] = .ok ((refChunks 2 ["a", "b", "c"]).map (String.intercalate " ")) ∧
    (refChunks 2 ["a", "b", "c"]).flatten = ["a", "b", "c"] ∧
    (refChunks 2 ["a", "b", "c"]).length = (3 + 2 - 1) / 2 ∧
    (["a", "b", "c"] = ([] : List String) → chunk_py 2 ["a", "b", "c"] = .ok []) :=
  chunker_matches_reference 2 ["a", "b", "c"] (by decide)

/-- C9 counterexample: chunk size `-1` on a two-sentence input produces the
empty chunk sequence with no error of any kind, instead of failing with
`InvalidConfigurationError`. -/
theorem chunker_negative_size_silently_empty :
    chunk_py (-1) ["a", "b"] = .ok [] := by rfl

/-- C9 amended: a non-positive chunk size is not rejected with a dedicated
configuration error: `n = 0` raises Python's built-in `ValueError` from
`range` at chunking time, and `n < 0` does not fail at all, silently
yielding an empty chunk sequence. -/
theorem chunker_nonpos_size_behavior :
    (∀ s : List String, chunk_py 0 s = .error (.valueError "range step must not be zero")) ∧
    (∀ (n : Int) (s : List String), n < 0 → chunk_py n s = .ok []) := by
  constructor
  · intro s
    rfl
  · intro n s hn
    have h1 : ¬(n = 0) := by omega
    simp [chunk_py, pyRange0, h1, hn, Except.map]

/-- C9 amended witness: the two non-positive chunk sizes evaluated. -/
theorem chunker_nonpos_size_behavior_witness :
    chunk_py 0 ["a"] = .error (.valueError "range step must not be zero") ∧
    chunk_py (-2) ["x", "y"] = .ok [] :=
  ⟨chunker_nonpos_size_behavior.1 ["a"],
   chunker_nonpos_size_behavior.2 (-2) ["x", "y"] (by decide)⟩

theorem validResult_spec (db : List FileChunk) (fid : Nat) (q : List ℚ)
    (out : List FileChunk) (h : validResult db fid q out) :
    out.length = min 10 ((db.filter (fun c => c.file_id == fid)).length) ∧
    (∀ c ∈ out, c.file_id = fid) ∧
    out.Pairwise (fun a b => chunkDist q a ≤ chunkDist q b) := by
  obtain ⟨full, hperm, hsort, hout⟩ := h
  subst hout
  refine ⟨?_, ?_, ?_⟩
  · rw [List.length_take, hperm.length_eq]
  · intro c hc
    have hcfull : c ∈ full := List.mem_of_mem_take hc
    have hcfilter : c ∈ db.filter (fun x => x.file_id == fid) := hperm.mem_iff.mp hcfull
    have := List.of_mem_filter hcfilter
    simpa using this
  · exact List.Pairwise.sublist (List.take_sublist 10 full) hsort

/-- C2: every result list the retrieval query may return has at most 10
entries, contains only chunks owned by the requested document, is sorted by
non-decreasing L2 distance between the stored vector and the query embedding,
is empty when the document owns no chunks, and holds exactly 3 entries when
the document owns 3 chunks (limit 10 exceeding the available count). -/
theorem retrieve_scoped_sorted_limited (db : List FileChunk) (fid : Nat) (q : List ℚ)
    (out : List FileChunk) (h : validResult db fid q out) :
    out.length ≤ 10 ∧
    (∀ c ∈ out, c.file_id = fid) ∧
    out.Pairwise (fun a b => chunkDist q a ≤ chunkDist q b) ∧
    (db.filter (fun c => c.file_id == fid) = [] → out = []) ∧
    ((db.filter (fun c => c.file_id == fid)).length = 3 → out.length = 3) := by
  obtain ⟨hlen, hmem, hsort⟩ := validResult_spec db fid q out h
  refine ⟨by omega, hmem, hsort, ?_, by intro h3; omega⟩
  intro hnil
  have hz : out.length = 0 := by rw [hlen, hnil]; rfl
  exact List.eq_nil_of_length_eq_zero hz

/-- C2 witness: a document owning exactly 3 chunks queried with limit 10. -/
theorem retrieve_scoped_sorted_limited_witness :
    exDb3.length ≤ 10 ∧
    (∀ c ∈ exDb3, c.file_id = 1) ∧
    exDb3.Pairwise (fun a b => chunkDist exQ a ≤ chunkDist exQ b) ∧
    (exDb3.filter (fun c => c.file_id == 1) = [] → exDb3 = []) ∧
    ((exDb3.filter (fun c => c.file_id == 1)).length = 3 → exDb3.length = 3) :=
  retrieve_scoped_sorted_limited exDb3 1 exQ exDb3
    ⟨exDb3, by decide,
     by simp [List.pairwise_cons, chunkDist, sqDist, exDb3, exQ]; norm_num,
     by rfl⟩

theorem tie_both_orders_valid :
    validResult tieDb 1 exQ [exA, exB] ∧ validResult tieDb 1 exQ [exB, exA] :=
  ⟨⟨[exA, exB], by decide,
    by simp [List.pairwise_cons, chunkDist, sqDist, exA, exB, exQ], by rfl⟩,
   ⟨[exB, exA], by decide,
    by simp [List.pairwise_cons, chunkDist, sqDist, exA, exB, exQ], by rfl⟩⟩

/-- C3 counterexample: two chunks of the same document at equal distance from
the query embedding; the query admits the result in which they are NOT in
ascending-identifier order, and admits two distinct results for the identical
call against unchanged data, so neither the claimed tie-break nor determinism
holds. -/
theorem retrieve_tie_nondeterministic :
    validResult tieDb 1 exQ [exA, exB] ∧ validResult tieDb 1 exQ [exB, exA] ∧
    chunkDist exQ exA = chunkDist exQ exB ∧
    exA.chunk_id < exB.chunk_id ∧
    ([exB, exA] : List FileChunk) ≠ [exA, exB] :=
  ⟨tie_both_orders_valid.1, tie_both_orders_valid.2,
   by simp [chunkDist, sqDist, exA, exB, exQ], by decide, by decide⟩

/-- C3 amended: the query orders results by the distance key only (no
secondary sort key appears in the `ORDER BY`), so every returned list is
sorted by non-decreasing distance, but chunks at equal distance may come back
in either order: two runs of the identical retrieve call against unchanged
stored data need not return identical output. -/
theorem retrieve_distance_order_only :
    (∀ (db : List FileChunk) (fid : Nat) (q : List ℚ) (out : List FileChunk),
      validResult db fid q out → out.Pairwise (fun a b => chunkDist q a ≤ chunkDist q b)) ∧
    (∃ (db : List FileChunk) (fid : Nat) (q : List ℚ) (out₁ out₂ : List FileChunk),
      validResult db fid q out₁ ∧ validResult db fid q out₂ ∧ out₁ ≠ out₂) := by
  constructor
  · intro db fid q out h
    exact (validResult_spec db fid q out h).2.2
  · exact ⟨tieDb, 1, exQ, [exA, exB], [exB, exA],
      tie_both_orders_valid.1, tie_both_orders_valid.2, by decide⟩

/-- C3 amended witness: the sortedness part applied to a concrete valid
result. -/
theorem retrieve_distance_order_only_witness :
    List.Pairwise (fun a b => chunkDist exQ a ≤ chunkDist exQ b) [exA, exB] :=
  retrieve_distance_order_only.1 tieDb 1 exQ [exA, exB]
    ⟨[exA, exB], by decide,
     by simp [List.pairwise_cons, chunkDist, sqDist, exA, exB, exQ], by rfl⟩

theorem fileParser_parse_missing (fs : FS) (p : String) (h : fs.lookup p = none) :
    ∃ e, fileParser_parse fs p = .error e := by
  unfold fileParser_parse
  cases hre : resolveExtractor (lastDotSegment p) with
  | none => exact ⟨.unsupportedType (lastDotSegment p), rfl⟩
  | some k => rw [h]; exact ⟨.notFound p, rfl⟩

theorem fileParser_parse_found (fs : FS) (p : String) (k : ParserKind) (d : FileData)
    (hk : resolveExtractor (lastDotSegment p) = some k) (hd : fs.lookup p = some d) :
    fileParser_parse fs p = .ok (runExtractor k d) := by
  unfold fileParser_parse
  rw [hk, hd]

/-- C4: for an allowed filename extension, `upload_file` runs
`FileParser(sources/<filename>).parse()` before the uploaded bytes are
written: when nothing sits at `sources/<filename>` the request fails with
HTTP 500 and neither the file system nor the `files` table changes, and when
a stale file sits there the stored document text is extracted from that
pre-existing content `d` (never from the uploaded bytes, which reach the disk
only after parsing). -/
theorem upload_parses_preexisting_file (fs : FS) (db : List FileRec)
    (filename : String) (uploaded : FileData)
    (hext : lastDotSegment filename ∈ (["txt", "pdf"] : List String)) :
    (fs.lookup ("sources/" ++ filename) = none →
      upload_file fs db filename uploaded = (.serverError, fs, db)) ∧
    (∀ k d, resolveExtractor (lastDotSegment ("sources/" ++ filename)) = some k →
      fs.lookup ("sources/" ++ filename) = some d →
      upload_file fs db filename uploaded =
        (.ok filename, fs.write ("sources/" ++ filename) uploaded,
         db ++ [⟨db.length + 1, filename, runExtractor k d⟩])) := by
  constructor
  · intro hnone
    obtain ⟨e, he⟩ := fileParser_parse_missing fs ("sources/" ++ filename) hnone
    unfold upload_file
    simp [hext, he]
  · intro k d hk hd
    have hp := fileParser_parse_found fs ("sources/" ++ filename) k d hk hd
    unfold upload_file
    simp [hext, hp]

/-- C4 witness: uploading `a.txt` against an empty `sources` folder fails
with HTTP 500 and stores nothing; uploading it while a stale file sits at
`sources/a.txt` stores the stale text. -/
theorem upload_parses_preexisting_file_witness :
    upload_file ⟨[]⟩ [] "a.txt" (.text "uploaded") = (.serverError, ⟨[]⟩, []) ∧
    upload_file ⟨[("sources/a.txt", .text "stale")]⟩ [] "a.txt" (.text "uploaded") =
      (.ok "a.txt",
       FS.write ⟨[("sources/a.txt", .text "stale")]⟩ "sources/a.txt" (.text "uploaded"),
       [⟨1, "a.txt", runExtractor .txt (.text "stale")⟩]) :=
  ⟨(upload_parses_preexisting_file ⟨[]⟩ [] "a.txt" (.text "uploaded") (by decide)).1 rfl,
   (upload_parses_preexisting_file ⟨[("sources/a.txt", .text "stale")]⟩ [] "a.txt"
      (.text "uploaded") (by decide)).2 .txt (.text "stale") rfl rfl⟩

/-- C5: `FileParser(path).parse()` fails only for the two structural
conditions: with an `UnsupportedTypeError` carrying the final-dot-segment
extension when no extractor is registered for it (rejected independently of
any file-system state, hence before any I/O), with a `NotFoundError` when an
extractor is registered but the file does not exist, and in every remaining
case it delegates to the (total) extractor and succeeds. -/
theorem fileParser_parse_error_characterisation (fs : FS) (p : String) :
    (resolveExtractor (lastDotSegment p) = none →
      ∀ fs' : FS, fileParser_parse fs' p = .error (.unsupportedType (lastDotSegment p))) ∧
    (∀ e, fileParser_parse fs p = .error e →
      (e = .unsupportedType (lastDotSegment p) ∧ resolveExtractor (lastDotSegment p) = none) ∨
      (e = .notFound p ∧ (∃ k, resolveExtractor (lastDotSegment p) = some k) ∧
        fs.lookup p = none)) ∧
    (∀ k, resolveExtractor (lastDotSegment p) = some k → fs.lookup p = none →
      fileParser_parse fs p = .error (.notFound p)) ∧
    (∀ k d, resolveExtractor (lastDotSegment p) = some k → fs.lookup p = some d →
      fileParser_parse fs p = .ok (runExtractor k d)) := by
  refine ⟨?_, ?_, ?_, fileParser_parse_found fs p⟩
  · intro hnone fs'
    unfold fileParser_parse
    rw [hnone]
  · intro e he
    unfold fileParser_parse at he
    cases hre : resolveExtractor (lastDotSegment p) with
    | none =>
      rw [hre] at he
      left
      exact ⟨by injection he with h; exact h.symm, rfl⟩
    | some k =>
      rw [hre] at he
      cases hl : fs.lookup p with
      | none =>
        rw [hl] at he
        right
        exact ⟨by injection he with h; exact h.symm, ⟨k, rfl⟩, rfl⟩
      | some d =>
        rw [hl] at he
        exact absurd he (by simp)
  · intro k hk hl
    unfold fileParser_parse
    rw [hk, hl]

/-- C5 witness: an unsupported extension rejected on an empty and a non-empty
file system alike, a registered extension whose file is missing failing with
`NotFoundError`, and a supported extension parsed from an existing file. -/
theorem fileParser_parse_error_characterisation_witness :
    fileParser_parse ⟨[("notes.docx", .text "zzz")]⟩ "notes.docx" =
      .error (.unsupportedType "docx") ∧
    fileParser_parse ⟨[]⟩ "sources/a.txt" = .error (.notFound "sources/a.txt") ∧
    fileParser_parse ⟨[("sources/a.txt", .text "hello")]⟩ "sources/a.txt" = .ok "hello" :=
  ⟨(fileParser_parse_error_characterisation ⟨[]⟩ "notes.docx").1 rfl
     ⟨[("notes.docx", .text "zzz")]⟩,
   (fileParser_parse_error_characterisation ⟨[]⟩ "sources/a.txt").2.2.1 .txt rfl rfl,
   (fileParser_parse_error_characterisation ⟨[("sources/a.txt", .text "hello")]⟩
      "sources/a.txt").2.2.2 .txt (.text "hello") rfl rfl⟩

theorem pagesText_eq_strConcat (ps : List PdfPage) :
    pagesText ps = strConcat (ps.map pageText) := by
  have H : ∀ (l : List PdfPage) (acc : String),
      l.foldl (fun content p => content ++ pageText p) acc = acc ++ strConcat (l.map pageText) := by
    intro l
    induction l with
    | nil =>
      intro acc
      simp [strConcat, String.append_empty]
    | cons p t ih =>
      intro acc
      simp only [List.foldl_cons, List.map_cons]
      rw [ih (acc ++ pageText p)]
      rw [String.append_assoc]
      rfl
  have h0 := H ps ""
  rw [String.empty_append] at h0
  exact h0

theorem strConcat_append (l₁ l₂ : List String) :
    strConcat (l₁ ++ l₂) = strConcat l₁ ++ strConcat l₂ := by
  induction l₁ with
  | nil => simp [strConcat, String.empty_append]
  | cons a t ih =>
    simp only [List.cons_append]
    show a ++ strConcat (t ++ l₂) = a ++ strConcat t ++ strConcat l₂
    rw [ih, String.append_assoc]

/-- C6 counterexample: a readable document whose first page has text layer
`"A"` and whose second page has an empty text layer and a failing OCR run
extracts to `"AError in OCR processing"`, not to `"A"`: the failed page's
contribution is a placeholder string, not the empty string. -/
theorem ocr_failure_page_not_empty_contribution :
    pdfParse ⟨true, ⟨false, true, [⟨"A", some "ocrA"⟩, ⟨"", none⟩]⟩⟩ =
      "AError in OCR processing" ∧
    ("AError in OCR processing" : String) ≠ "A" :=
  ⟨rfl, by decide⟩

/-- C6 amended: a page on which the OCR fallback fails contributes the fixed
placeholder string `"Error in OCR processing"` (not the empty string) to the
extracted text; the document is not aborted, and the text recovered from the
pages before and after it is preserved in order. -/
theorem ocr_failure_page_contributes_placeholder (pre post : List PdfPage) (p : PdfPage)
    (enc dec : Bool) (h1 : p.textLayer = "") (h2 : p.ocr = none)
    (h3 : (enc && !dec) = false) :
    pdfParse ⟨true, ⟨enc, dec, pre ++ p :: post⟩⟩ =
      strConcat (pre.map pageText) ++
        ("Error in OCR processing" ++ strConcat (post.map pageText)) := by
  unfold pdfParse
  simp only [Bool.not_true, if_false, h3, ite_false]
  rw [pagesText_eq_strConcat, List.map_append, strConcat_append, List.map_cons]
  have hp : pageText p = "Error in OCR processing" := by
    simp [pageText, ocrPage, h1, h2]
  show strConcat (pre.map pageText) ++ (pageText p ++ strConcat (post.map pageText)) = _
  rw [hp]

/-- C6 amended witness: a three-page document whose middle page fails OCR. -/
theorem ocr_failure_page_contributes_placeholder_witness :
    pdfParse ⟨true, ⟨false, true, [⟨"A", some "ocrA"⟩] ++ ⟨"", none⟩ :: [⟨"B", some "ocrB"⟩]⟩⟩ =
      strConcat ([⟨"A", some "ocrA"⟩].map pageText) ++
        ("Error in OCR processing" ++ strConcat ([⟨"B", some "ocrB"⟩].map pageText)) :=
  ocr_failure_page_contributes_placeholder [⟨"A", some "ocrA"⟩] [⟨"B", some "ocrB"⟩]
    ⟨"", none⟩ false true rfl rfl rfl

/-- C7: an encrypted PDF whose empty-password decryption fails extracts to
the single failure string `"Unable to decrypt PDF"` whatever its pages hold
(no per-page extraction is attempted), and an unreadable (corrupt) document
extracts to the failure string `"Error processing PDF file"`; in both cases
`pdfParse` returns a string rather than raising. -/
theorem pdf_document_level_failures :
    (∀ pages : List PdfPage, pdfParse ⟨true, ⟨true, false, pages⟩⟩ = "Unable to decrypt PDF") ∧
    (∀ f : PdfFile, f.readable = false → pdfParse f = "Error processing PDF file") := by
  constructor
  · intro pages
    rfl
  · intro f hf
    unfold pdfParse
    rw [hf]
    rfl

/-- C7 witness: a non-decryptable document with a page of content, and an
unreadable document. -/
theorem pdf_document_level_failures_witness :
    pdfParse ⟨true, ⟨true, false, [⟨"secret", some "s"⟩]⟩⟩ = "Unable to decrypt PDF" ∧
    pdfParse ⟨false, ⟨false, true, [⟨"lost", none⟩]⟩⟩ = "Error processing PDF file" :=
  ⟨pdf_document_level_failures.1 [⟨"secret", some "s"⟩],
   pdf_document_level_failures.2 ⟨false, ⟨false, true, [⟨"lost", none⟩]⟩⟩ rfl⟩

/-- C8: on every readable (and decryptable) PDF, extraction walks the pages
in order; each page contributes its direct text-layer extraction, with the
OCR fallback invoked exactly when the direct result is empty; and the result
is the concatenation of the per-page texts in page order with no added
separator. -/
theorem pdf_pages_in_order_ocr_iff_empty (f : PdfFile) (hr : f.readable = true)
    (hd : (f.doc.encrypted && !f.doc.decryptOk) = false) :
    pdfParse f =
      strConcat (f.doc.pages.map
        (fun p => if p.textLayer = "" then ocrPage p else p.textLayer)) := by
  unfold pdfParse
  rw [hr, hd]
  simp only [Bool.not_true, if_false, ite_false]
  rw [pagesText_eq_strConcat]
  rfl

/-- C8 witness: a document with one text page and one image-only page whose
OCR succeeds. -/
theorem pdf_pages_in_order_ocr_iff_empty_witness :
    pdfParse ⟨true, ⟨false, true, [⟨"A", some "unused"⟩, ⟨"", some "B"⟩]⟩⟩ =
      strConcat (([⟨"A", some "unused"⟩, ⟨"", some "B"⟩] : List PdfPage).map
        (fun p => if p.textLayer = "" then ocrPage p else p.textLayer)) :=
  pdf_pages_in_order_ocr_iff_empty ⟨true, ⟨false, true, [⟨"A", some "unused"⟩, ⟨"", some "B"⟩]⟩⟩
    rfl rfl

theorem chunkLoop_spec (embed : String → Option (List ℚ)) (fid : Nat) :
    ∀ (chunks : List String) (s : Session),
      (∀ t, chunkLoop embed fid s chunks = .error t → t.committed = s.committed ∧
        ∃ new, t.pending = s.pending ++ new ∧
          new.map FileChunk.chunk_text = chunks.takeWhile (fun c => (embed c).isSome)) ∧
      (∀ t, chunkLoop embed fid s chunks = .ok t → t.committed = s.committed ∧
        ∃ new, t.pending = s.pending ++ new ∧ new.map FileChunk.chunk_text = chunks) ∧
      ((∃ t, chunkLoop embed fid s chunks = .error t) ↔ ∃ c ∈ chunks, embed c = none) := by
  intro chunks
  induction chunks with
  | nil =>
    intro s
    refine ⟨?_, ?_, ?_⟩
    · intro t ht
      simp [chunkLoop] at ht
    · intro t ht
      simp only [chunkLoop] at ht
      injection ht with ht
      subst ht
      exact ⟨rfl, [], by simp⟩
    · simp [chunkLoop]
  | cons c rest ih =>
    intro s
    cases hc : embed c with
    | none =>
      refine ⟨?_, ?_, ?_⟩
      · intro t ht
        simp only [chunkLoop, hc] at ht
        injection ht with ht
        subst ht
        refine ⟨rfl, [], by simp, ?_⟩
        have hfalse : (embed c).isSome = false := by rw [hc]; rfl
        simp [List.takeWhile_cons, hfalse]
      · intro t ht
        simp [chunkLoop, hc] at ht
      · constructor
        · intro _
          exact ⟨c, List.mem_cons_self c rest, hc⟩
        · intro _
          exact ⟨s, by simp [chunkLoop, hc]⟩
    | some v =>
      obtain ⟨iherr, ihok, ihiff⟩ :=
        ih (s.add ⟨s.committed.length + s.pending.length + 1, fid, c, v⟩)
      have hstep : chunkLoop embed fid s (c :: rest) =
          chunkLoop embed fid
            (s.add ⟨s.committed.length + s.pending.length + 1, fid, c, v⟩) rest := by
        simp [chunkLoop, hc]
      refine ⟨?_, ?_, ?_⟩
      · intro t ht
        rw [hstep] at ht
        obtain ⟨hcom, new, hpend, hmap⟩ := iherr t ht
        refine ⟨hcom, ⟨s.committed.length + s.pending.length + 1, fid, c, v⟩ :: new, ?_, ?_⟩
        · rw [hpend]
          simp [Session.add]
        · have htrue : (embed c).isSome = true := by rw [hc]; rfl
          simp [List.takeWhile_cons, htrue, hmap]
      · intro t ht
        rw [hstep] at ht
        obtain ⟨hcom, new, hpend, hmap⟩ := ihok t ht
        refine ⟨hcom, ⟨s.committed.length + s.pending.length + 1, fid, c, v⟩ :: new, ?_, ?_⟩
        · rw [hpend]
          simp [Session.add]
        · simp [hmap]
      · rw [hstep, ihiff]
        constructor
        · intro ⟨c', hc', hn⟩
          exact ⟨c', List.mem_cons_of_mem c hc', hn⟩
        · intro ⟨c', hc', hn⟩
          rcases List.mem_cons.mp hc' with hceq | hcmem
          · subst hceq
            rw [hc] at hn
            exact absurd hn (by simp)
          · exact ⟨c', hcmem, hn⟩

/-- C10: running the embed-and-store phase of one document's ingestion from a
store holding `db`, either the embedding of every chunk succeeds and the
committed store becomes `db` plus a row for every chunk in order, or some
embedding call fails, the loop stops (only the chunks before the first
failure were staged) and the committed store is still exactly `db`: no chunk
of the document is written, never a partially indexed subset. -/
theorem ingest_all_or_nothing (embed : String → Option (List ℚ)) (fid : Nat)
    (db : List FileChunk) (chunks : List String) :
    (∀ s, chunk_and_embed embed fid ⟨db, []⟩ chunks = .error s → s.committed = db ∧
      s.pending.map FileChunk.chunk_text = chunks.takeWhile (fun c => (embed c).isSome)) ∧
    (∀ s, chunk_and_embed embed fid ⟨db, []⟩ chunks = .ok s → s.pending = [] ∧
      ∃ new, s.committed = db ++ new ∧ new.map FileChunk.chunk_text = chunks) ∧
    ((∃ s, chunk_and_embed embed fid ⟨db, []⟩ chunks = .error s) ↔
      ∃ c ∈ chunks, embed c = none) := by
  obtain ⟨herr, hok, hiff⟩ := chunkLoop_spec embed fid chunks ⟨db, []⟩
  refine ⟨?_, ?_, ?_⟩
  · intro s hs
    unfold chunk_and_embed at hs
    cases hres : chunkLoop embed fid ⟨db, []⟩ chunks with
    | error t =>
      rw [hres] at hs
      injection hs with hs
      subst hs
      obtain ⟨hcom, new, hpend, hmap⟩ := herr t hres
      refine ⟨hcom, ?_⟩
      rw [hpend]
      simpa using hmap
    | ok t =>
      rw [hres] at hs
      exact absurd hs (by simp [Except.map])
  · intro s hs
    unfold chunk_and_embed at hs
    cases hres : chunkLoop embed fid ⟨db, []⟩ chunks with
    | error t =>
      rw [hres] at hs
      exact absurd hs (by simp [Except.map])
    | ok t =>
      rw [hres] at hs
      injection hs with hs
      obtain ⟨hcom, new, hpend, hmap⟩ := hok t hres
      subst hs
      refine ⟨rfl, new, ?_, hmap⟩
      show t.committed ++ t.pending = db ++ new
      rw [hcom, hpend]
      simp
  · rw [← hiff]
    constructor
    · intro ⟨s, hs⟩
      unfold chunk_and_embed at hs
      cases hres : chunkLoop embed fid ⟨db, []⟩ chunks with
      | error t =>
        exact ⟨t, rfl⟩
      | ok t =>
        rw [hres] at hs
        exact absurd hs (by simp [Except.map])
    · intro ⟨t, ht⟩
      refine ⟨t, ?_⟩
      unfold chunk_and_embed
      rw [ht]
      rfl

/-- C10 witness: an embedder failing on the chunk `"bad"`: the run stops
with only the earlier chunk staged and the committed store still empty. -/
theorem ingest_all_or_nothing_witness :
    (Session.mk [] [⟨1, 5, "good", [0]⟩]).committed = [] ∧
    (Session.mk [] [⟨1, 5, "good", [0]⟩]).pending.map FileChunk.chunk_text =
      (["good", "bad", "more"].takeWhile
        (fun c => ((fun x => if x = "bad" then none else some ([0] : List ℚ)) c).isSome)) :=
  (ingest_all_or_nothing (fun x => if x = "bad" then none else some [0]) 5 []
    ["good", "bad", "more"]).1 ⟨[], [⟨1, 5, "good", [0]⟩]⟩ rfl
